import Mathlib

/-!
Verification of the bricks game replay engine against its specification.

The Rust sources are embedded shallowly: pure functions become Lean
functions, panics and `ensure!` failures become `Option`/`Except` results,
machine integers become `Nat`/`Int` (with explicit `% 2 ^ 16` where the
source relies on `u16` wrap-around), and the ordered maps (`IndexMap`,
`BTreeMap`, `HashMap`) become association lists with the access patterns
the engine actually uses.
-/

set_option maxHeartbeats 1000000

namespace Bricks

/-! ### Exact rational arithmetic, from src/fraction.rs -/

def i64Max : Int := 2 ^ 63 - 1

def u64Max : Nat := 2 ^ 64 - 1

/-- A signed numerator over an unsigned denominator (`struct Fraction`).
The 64-bit bounds only matter at overflow checks, modelled explicitly. -/
structure Fraction where
  numer : Int
  denom : Nat
deriving DecidableEq

/-- `Fraction::new`: reduce by the gcd; a zero denominator encodes NaN
(numer 0) or signed infinity (numer reduced to its signum). The divisions
by the gcd are exact, so the truncating Rust `/` agrees with Lean. -/
def Fraction.new (numer : Int) (denom : Nat) : Fraction :=
  if denom = 0 then
    if numer = 0 then ⟨0, 0⟩ else ⟨numer.sign, 0⟩
  else
    let g : Nat := Nat.gcd numer.natAbs denom
    ⟨numer / (g : Int), denom / g⟩

/-- `Fraction::is_overflow`: the saturation sentinel produced on integer
overflow. -/
def Fraction.isOverflow (f : Fraction) : Bool :=
  f.numer == i64Max && f.denom == u64Max

/-- The match at the heart of `Fraction::round`: add one to the truncated
quotient when the remainder exceeds half the denominator, or equals it
exactly with an even denominator. -/
def roundCore (quo rem denom : Nat) : Nat :=
  match compare rem (denom >>> 1), denom % 2 == 0 with
  | Ordering.gt, _ => quo + 1
  | Ordering.eq, true => quo + 1
  | _, _ => quo

/-- `Fraction::round`. The source asserts `denom != 0`; the assert is
modelled as `none`. `denom >> 1` is `denom / 2` and `denom & 1 == 0` is
the evenness test; `checked_add(1).unwrap()` and the final sign fix-up
cannot overflow for fractions built by `Fraction::new`, so they are
modelled exactly. -/
def Fraction.round (f : Fraction) : Option Int :=
  if f.denom = 0 then none
  else
    some ((roundCore (f.numer.natAbs / f.denom) (f.numer.natAbs % f.denom)
      f.denom : Int) * f.numer.sign)

/-! ### Fraction multiplication and display, src/fraction.rs and src/percentage.rs -/

/-- The saturation sentinel returned by arithmetic on overflow. -/
def overflowFraction : Fraction := ⟨i64Max, u64Max⟩

/-- `i64::checked_mul`. -/
def checkedMulI64 (a b : Int) : Option Int :=
  if -(2 ^ 63) ≤ a * b ∧ a * b ≤ i64Max then some (a * b) else none

/-- `u64::checked_mul`. -/
def checkedMulU64 (a b : Nat) : Option Nat :=
  if a * b ≤ u64Max then some (a * b) else none

/-- `impl Mul for Fraction`: checked products of numerators and of
denominators, saturating to the overflow sentinel, reduced through
`Fraction::new`. -/
def Fraction.mul (a b : Fraction) : Fraction :=
  match checkedMulI64 a.numer b.numer with
  | none => overflowFraction
  | some n =>
    match checkedMulU64 a.denom b.denom with
    | none => overflowFraction
    | some d => Fraction.new n d

/-- Decimal digits of `n`, least significant first, with explicit fuel so
that the recursion is structural. `natRepr` always passes enough fuel. -/
def natDigitsRevAux : Nat → Nat → List Char
  | _, 0 => []
  | n, fuel+1 =>
    if n = 0 then [] else Nat.digitChar (n % 10) :: natDigitsRevAux (n / 10) fuel

/-- Decimal rendering of a natural number, as the Rust `{}` format of `u64`. -/
def natRepr (n : Nat) : String :=
  if n = 0 then "0" else String.mk (natDigitsRevAux n n).reverse

/-- Decimal rendering of an integer, as the Rust `{}` format of `i64`. -/
def intRepr (i : Int) : String :=
  if i < 0 then "-" ++ natRepr i.natAbs else natRepr i.natAbs

/-- Rust zero left-padding, the format spec `{:0>width$}`. -/
def padLeftZeros (s : String) (w : Nat) : String :=
  String.mk (List.replicate (w - s.length) '0' ++ s.data)

/-- The value `x = (*self * mult_frac).round()` in the Display impl. The
round assert cannot fire there: the receiver has a non-zero denominator and
the product therefore keeps one (the sentinel denominator is also
non-zero), so the `getD` default is never taken. -/
def scaledRound (f : Fraction) (precision : Nat) : Int :=
  ((f.mul ⟨(10 : Int) ^ precision, 1⟩).round).getD 0

/-- The integer part `trunc = x / mult` of the scaled rounded value. -/
def displayTrunc (f : Fraction) (precision : Nat) : Int :=
  (scaledRound f precision).tdiv ((10 : Int) ^ precision)

/-- `impl Display for Fraction` (src/fraction.rs lines 136 to 171), with
the formatter alternate flag and precision made explicit parameters.
`10_i64.pow(precision)` is modelled as the exact power, which agrees with
the source for every precision up to 18 (the program uses at most 3). -/
def Fraction.display (f : Fraction) (alternate : Bool) (precision : Nat) : String :=
  if f.isOverflow then "ovf"
  else if f.denom = 0 then
    (if f.numer = 0 then "NaN" else if f.numer < 0 then "-inf" else "inf")
  else
    (if alternate || displayTrunc f precision != 0 then
      intRepr (displayTrunc f precision)
     else "") ++
    (if 0 < precision then
      "." ++ padLeftZeros
        (natRepr ((scaledRound f precision).tmod ((10 : Int) ^ precision)).natAbs)
        precision
     else "")

/-- `impl Display for Pct<PRECISION>` (src/percentage.rs): precisions below
3 set the alternate flag, which keeps the leading zero. -/
def pctDisplay (precision : Nat) (f : Fraction) : String :=
  if precision < 3 then f.display true precision else f.display false precision

/-! ### Data model: Stats, Team, Game

The replay engine in src/state.rs imports `Game`, `Kind`, `Stats` and
`Team` from a `game` module that is not among the provided sources (the
src/game.rs and src/stats.rs present are an older generation with a
different `State`). These containers are therefore modelled from the
spec (section 3), matching exactly the fields and operations the engine
uses. -/

/-- Player and team identifiers. The all-zero `Uuid::default()` used as
the unknown-pitcher placeholder is modelled as 0. -/
abbrev Uuid := Nat

/-- Modelled from the spec: the per-player counter record `Stats` of the
missing game module, spec section 3 (counters are `u32` in the engine;
overflow is unreachable for these claims, so they are `Nat` here). -/
structure Stats where
  plate_appearances : Nat := 0
  at_bats : Nat := 0
  at_bats_with_risp : Nat := 0
  hits_with_risp : Nat := 0
  singles : Nat := 0
  doubles : Nat := 0
  triples : Nat := 0
  home_runs : Nat := 0
  runs : Nat := 0
  runs_batted_in : Nat := 0
  sacrifices : Nat := 0
  stolen_bases : Nat := 0
  caught_stealing : Nat := 0
  strike_outs : Nat := 0
  double_plays_grounded_into : Nat := 0
  walks : Nat := 0
  left_on_base : Nat := 0
  games_batted : Nat := 0
  games_pitched : Nat := 0
  games_started : Nat := 0
  games_finished : Nat := 0
  complete_games : Nat := 0
  shutouts : Nat := 0
  no_hitters : Nat := 0
  perfect_games : Nat := 0
  wins : Nat := 0
  losses : Nat := 0
  saves : Nat := 0
  batters_faced : Nat := 0
  outs_recorded : Nat := 0
  hits_allowed : Nat := 0
  home_runs_allowed : Nat := 0
  earned_runs : Nat := 0
  struck_outs : Nat := 0
  walks_issued : Nat := 0
  strikes_pitched : Nat := 0
  balls_pitched : Nat := 0
  flyouts_pitched : Nat := 0
  groundouts_pitched : Nat := 0
deriving DecidableEq

/-- `Stats::default()`: all counters zero. -/
def Stats.zero : Stats := {}

/-- Modelled from the spec: a record has batting activity when any
batting-family counter is non-zero (spec sections 3 and 4.5.9; the game
counters `games_batted` and `games_pitched` are bookkeeping, not
activity). -/
def Stats.isBatting (s : Stats) : Bool :=
  s.plate_appearances + s.at_bats + s.at_bats_with_risp + s.hits_with_risp +
    s.singles + s.doubles + s.triples + s.home_runs + s.runs +
    s.runs_batted_in + s.sacrifices + s.stolen_bases + s.caught_stealing +
    s.strike_outs + s.double_plays_grounded_into + s.walks +
    s.left_on_base != 0

/-- Modelled from the spec: a record has pitching activity when any
pitching-family counter is non-zero. -/
def Stats.isPitching (s : Stats) : Bool :=
  s.games_started + s.games_finished + s.complete_games + s.shutouts +
    s.no_hitters + s.perfect_games + s.wins + s.losses + s.saves +
    s.batters_faced + s.outs_recorded + s.hits_allowed +
    s.home_runs_allowed + s.earned_runs + s.struck_outs + s.walks_issued +
    s.strikes_pitched + s.balls_pitched + s.flyouts_pitched +
    s.groundouts_pitched != 0

/-! Insertion-ordered maps (`IndexMap`, `HashMap`, `BTreeMap`) are
modelled as association lists supporting exactly the operations the
engine uses. Keys are never duplicated by these operations. -/

/-- `contains_key`. -/
def alContains {β : Type} (m : List (Nat × β)) (k : Nat) : Bool :=
  m.any (fun e => e.1 == k)

/-- `get`, first occurrence. -/
def alFind? {β : Type} (m : List (Nat × β)) (k : Nat) : Option β :=
  (m.find? (fun e => e.1 == k)).map (fun e => e.2)

/-- `get(...).copied().unwrap_or_default()`. -/
def alFindD {β : Type} (m : List (Nat × β)) (k : Nat) (d : β) : β :=
  (alFind? m k).getD d

/-- `entry(k).or_default()` followed by a mutation `f` of the entry:
modifies the first occurrence in place, or appends `f d` (`IndexMap`
inserts at the end). -/
def alUpdate {β : Type} : List (Nat × β) → Nat → (β → β) → β → List (Nat × β)
  | [], k, f, d => [(k, f d)]
  | e :: rest, k, f, d =>
    if e.1 = k then (e.1, f e.2) :: rest else e :: alUpdate rest k f d

/-- `entry(k).or_default()` alone. -/
def alEnsure {β : Type} (m : List (Nat × β)) (k : Nat) (d : β) : List (Nat × β) :=
  alUpdate m k id d

/-- Remove the first element satisfying the predicate, returning it and
the remaining list (`iter().position(...)` plus `remove(index)`). -/
def removeFirst {α : Type} : List α → (α → Bool) → Option (α × List α)
  | [], _ => none
  | x :: rest, p =>
    if p x then some (x, rest)
    else (removeFirst rest p).map (fun q => (q.1, x :: q.2))

/-- The engine Runner: runner id, pitcher to charge when they score, and
the minimum base they are known to occupy. -/
structure Runner where
  id : Uuid
  pitcher : Uuid
  base : Nat
deriving DecidableEq

/-- Reasons why a finishing pitcher might be in a save situation. -/
inductive SaveSituation where
  | TyingRun
  | LeadThreeOrLess
deriving DecidableEq

/-- Game kind. -/
inductive Kind where
  | Regular
  | Postseason
  | Special
deriving DecidableEq

/-- Modelled from the spec: the Team container of the missing game
module, spec section 3. -/
structure Team where
  id : Uuid := 0
  player_names : List (Uuid × String) := []
  lineup : List (List Uuid) := []
  pitchers : List Uuid := []
  pitcher_of_record : Uuid := 0
  saving_pitcher : Option Uuid := none
  stats : List (Uuid × Stats) := []
  inning_runs : List (Nat × Nat) := []
  left_on_base : Nat := 0
  won : Bool := false
  crisp : List Uuid := []
deriving DecidableEq

/-- Modelled from the spec: `Team::runs()` is the sum of `inning_runs`
(spec section 3 invariants). -/
def Team.runs (t : Team) : Nat :=
  (t.inning_runs.map (fun e => e.2)).sum

/-- Modelled from the spec: `Team::positions()` iterates the lineup
stacks together with the pitcher stack (finish checks a name for every
member of every position). -/
def Team.positions (t : Team) : List (List Uuid) :=
  t.lineup ++ [t.pitchers]

/-- Modelled from the spec: `Team::replace_placeholder_pitcher` swaps the
zero unknown-pitcher sentinel (spec section 3: used transiently before
the first pitcher is named) for the named pitcher throughout the pitcher
stack, re-keying its stats and name entries; returns whether a
replacement happened. -/
def Team.replacePlaceholderPitcher (t : Team) (pid : Uuid) (name : String) :
    Bool × Team :=
  if t.pitchers.contains 0 then
    (true,
      { t with
        pitchers := t.pitchers.map (fun p => if p = 0 then pid else p),
        stats := t.stats.map (fun e => if e.1 = 0 then (pid, e.2) else e),
        player_names := (t.player_names.filter (fun e => e.1 ≠ 0)) ++
          [(pid, name)] })
  else (false, t)

/-- Modelled from the spec: the Game record, spec section 3. -/
structure Game where
  day : Nat := 0
  kind : Kind := Kind.Regular
  weather : Nat := 0
  away : Team := {}
  home : Team := {}
deriving DecidableEq

/-! ### The replay state machine, src/state.rs -/

/-- The shadow state of `struct State` (src/state.rs lines 34 to 56). The
game id and the mods set are irrelevant to the embedded operations; the
two save-situation slots are `(away, home)`, matching the array
indexing. -/
structure State where
  game : Game := {}
  game_started : Bool := false
  game_finished : Bool := false
  inning : Nat := 1
  top_of_inning : Bool := true
  last_runs_cmp : Ordering := Ordering.eq
  half_inning_outs : Nat := 0
  at_bat : Option Uuid := none
  last_fielded_out : Option Uuid := none
  rbi_credit : Option Uuid := none
  save_situation : Option SaveSituation × Option SaveSituation := (none, none)
  on_base : List Runner := []
  on_base_start_of_play : List Runner := []
  expected : Nat × Nat := (0, 0)
deriving DecidableEq

/-- `State::offense`. -/
def State.offense (s : State) : Team :=
  if s.top_of_inning then s.game.away else s.game.home

/-- `State::defense`. -/
def State.defense (s : State) : Team :=
  if s.top_of_inning then s.game.home else s.game.away

/-- Write through `State::offense_mut`. -/
def State.setOffense (s : State) (t : Team) : State :=
  { s with game :=
      if s.top_of_inning then { s.game with away := t }
      else { s.game with home := t } }

/-- Write through `State::defense_mut`. -/
def State.setDefense (s : State) (t : Team) : State :=
  { s with game :=
      if s.top_of_inning then { s.game with home := t }
      else { s.game with away := t } }

/-- `State::runs_cmp`. -/
def State.runsCmp (s : State) : Ordering :=
  compare s.game.away.runs s.game.home.runs

/-- `State::record_runner_event` with a concrete counter mutation
(`offense_stats` is `entry(player).or_default()`). -/
def State.recordRunnerEvent (s : State) (runner : Uuid) (f : Stats → Stats) :
    State :=
  s.setOffense { s.offense with
    stats := alUpdate s.offense.stats runner f Stats.zero }

/-- `State::credit_run`, src/state.rs lines 945 to 975. Finds the scoring
runner in the on-base list (first occurrence, as `position`), removes
them, charges the earned run to the pitcher stored in the Runner, and on
a lead change records pitchers of record. The `unwrap` on the offense
pitcher stack is modelled as a failure. -/
def State.creditRun (s : State) (runner : Uuid) : Except String State :=
  match removeFirst s.on_base (fun r => r.id == runner) with
  | none => Except.error "cannot determine pitcher to charge with earned run"
  | some (r, rest) =>
    let pitcher := r.pitcher
    let s1 := { s with on_base := rest }
    let s2 := s1.setOffense { s1.offense with
      inning_runs := alUpdate s1.offense.inning_runs s1.inning (fun x => x + 1) 0 }
    let s3 := s2.recordRunnerEvent runner
      (fun st => { st with runs := st.runs + 1 })
    let s4 := match s3.rbi_credit with
      | some rc => s3.recordRunnerEvent rc
          (fun st => { st with runs_batted_in := st.runs_batted_in + 1 })
      | none => s3
    let s5 := s4.setDefense { s4.defense with
      stats := alUpdate s4.defense.stats pitcher
        (fun st => { st with earned_runs := st.earned_runs + 1 }) Stats.zero }
    if s5.runsCmp ≠ s5.last_runs_cmp ∧ s5.runsCmp ≠ Ordering.eq then
      match s5.offense.pitchers.getLast? with
      | none => Except.error "offense pitcher stack is empty"
      | some op =>
        let s6 := s5.setOffense { s5.offense with pitcher_of_record := op }
        let s7 := s6.setDefense { s6.defense with pitcher_of_record := pitcher }
        Except.ok s7
    else
      Except.ok s5

/-- Total `outs_recorded` over a stats map, as summed in `State::finish`. -/
def sumOuts (stats : List (Uuid × Stats)) : Nat :=
  (stats.map (fun e => e.2.outs_recorded)).sum

/-- The losing-side fallback aside, the winning-team fallback pitcher of
record: `pitchers.iter().copied().skip(1).rev().max_by_key(outs)`.
`max_by_key` keeps the later of equally-maximal elements, modelled by the
fold replacing on `≥`; `unwrap_or_default()` yields 0 on an empty
iterator. -/
def reliefWithMostOuts (pitchers : List Uuid) (stats : List (Uuid × Stats)) :
    Uuid :=
  let cand := ((pitchers.drop 1).reverse).foldl
    (fun acc p =>
      match acc with
      | none => some p
      | some q =>
        if (alFindD stats q Stats.zero).outs_recorded ≤
            (alFindD stats p Stats.zero).outs_recorded
        then some p else some q)
    none
  cand.getD 0

/-- The save decision of `State::finish`, src/state.rs lines 169 to 183:
on the winning team, when the finishing pitcher (last of the stack,
`unwrap` modelled as failure) is not the pitcher of record, look up their
outs through `entry(...).or_default()` and grant a save according to the
recorded save situation. -/
def saveStep (save : Option SaveSituation) (t : Team) : Except String Team :=
  if t.won then
    match t.pitchers.getLast? with
    | none => Except.error "team pitcher stack is empty"
    | some fp =>
      if t.pitcher_of_record ≠ fp then
        let stats1 := alEnsure t.stats fp Stats.zero
        let outs := (alFindD stats1 fp Stats.zero).outs_recorded
        let isSave : Bool :=
          match save with
          | some SaveSituation.TyingRun => decide (1 ≤ outs)
          | some SaveSituation.LeadThreeOrLess => decide (3 ≤ outs)
          | none => decide (9 ≤ outs)
        if isSave then
          Except.ok { t with
            saving_pitcher := some fp,
            stats := alUpdate stats1 fp (fun st => { st with saves := 1 })
              Stats.zero }
        else
          Except.ok { t with stats := stats1 }
      else Except.ok t
  else Except.ok t

/-- The first of the two per-record ifs at the end of `State::finish`:
`games_batted` is incremented for records with batting activity. -/
def gamesIncrementBat (st : Stats) : Stats :=
  if st.isBatting then { st with games_batted := st.games_batted + 1 } else st

/-- The second if: `games_pitched` is incremented for records with
pitching activity (the activity flags read neither game counter, so the
sequencing matches the source). -/
def gamesIncrementPitch (st : Stats) : Stats :=
  if st.isPitching then { st with games_pitched := st.games_pitched + 1 }
  else st

/-- The per-record game counting at the end of `State::finish`. -/
def gamesIncrement (st : Stats) : Stats :=
  gamesIncrementPitch (gamesIncrementBat st)

/-- The pitcher-of-record fallback of `State::finish` (lines 133 to 158):
a cleared candidate is replaced by the longest-throwing reliever on a
winning team, or by the starter on a losing team. -/
def resolvePitcherOfRecord (team : Team) (pitchers0 : List Uuid)
    (stats0 : List (Uuid × Stats)) : Uuid :=
  if team.pitcher_of_record = 0 then
    (if team.won then reliefWithMostOuts pitchers0 stats0
     else (pitchers0.head?).getD 0)
  else team.pitcher_of_record

/-- The win or loss assignment of `State::finish` (lines 163 to 167). -/
def winLossAssign (won : Bool) (stats0 : List (Uuid × Stats)) (por : Uuid) :
    List (Uuid × Stats) :=
  if won then alUpdate stats0 por (fun st => { st with wins := 1 }) Stats.zero
  else alUpdate stats0 por (fun st => { st with losses := 1 }) Stats.zero

/-- One iteration of the per-team loop of `State::finish`, src/state.rs
lines 108 to 210: drop all-zero stats records and dangling references,
check for placeholder ids and missing names, resolve the pitcher of
record (with the five-inning fallbacks), assign the win or the loss, run
the save decision, check whole innings and sentinel freedom, and count
games batted and pitched. -/
def teamFinish (save : Option SaveSituation) (team : Team) : Except String Team :=
  let stats0 := team.stats.filter (fun e => e.2 ≠ Stats.zero)
  let names0 := team.player_names.filter (fun e => alContains stats0 e.1)
  let lineup0 := (team.lineup.map
    (fun pos => pos.filter (fun pid => alContains stats0 pid))).filter
    (fun pos => pos ≠ [])
  let pitchers0 := team.pitchers.filter (fun pid => alContains stats0 pid)
  if ¬ (∀ p ∈ pitchers0, p ≠ 0) then
    Except.error "placeholder pitcher ID found"
  else if ¬ (∀ pos ∈ lineup0 ++ [pitchers0], ∀ pl ∈ pos,
      alContains names0 pl = true) then
    Except.error "name missing"
  else
    let por := resolvePitcherOfRecord team pitchers0 stats0
    if por = 0 then
      Except.error "placeholder pitcher ID listed as winning or losing pitcher"
    else
      match saveStep save { team with
          stats := winLossAssign team.won stats0 por, player_names := names0,
          lineup := lineup0, pitchers := pitchers0,
          pitcher_of_record := por } with
      | Except.error e => Except.error e
      | Except.ok t2 =>
        if ¬ (sumOuts t2.stats % 3 = 0) then
          Except.error "fractional total innings pitched"
        else if alContains t2.stats 0 then
          Except.error "placeholder pitcher ID present in stats"
        else if alContains t2.player_names 0 then
          Except.error "placeholder pitcher ID present in player names"
        else
          Except.ok { t2 with
            stats := t2.stats.map (fun e => (e.1, gamesIncrement e.2)) }

/-- `State::ensure_pitchers_known`: the first pitcher of each team is not
the placeholder (the `unwrap` on an empty stack is modelled as the same
failure). -/
def pitchersKnown (g : Game) : Bool :=
  (g.away.pitchers.head?).getD 0 != 0 && (g.home.pitchers.head?).getD 0 != 0

/-- `State::finish`, src/state.rs lines 102 to 213. -/
def State.finish (s : State) : Except String Game :=
  if ¬ s.game_finished then Except.error "game incomplete"
  else if ¬ pitchersKnown s.game then Except.error "initial pitchers are unknown"
  else if ¬ Bool.xor s.game.away.won s.game.home.won then
    Except.error "winner mismatch"
  else
    match teamFinish s.save_situation.1 s.game.away with
    | Except.error e => Except.error e
    | Except.ok awayDone =>
      match teamFinish s.save_situation.2 s.game.home with
      | Except.error e => Except.error e
      | Except.ok homeDone =>
        Except.ok { s.game with away := awayDone, home := homeDone }

/-- The nested finishing-pitcher credit of the kind 11 branch: games
finished, then complete game, shutout, no-hitter and perfect game, each
conditional on the previous. -/
def finishingPitcherCascade (st : Stats) : Stats :=
  let st1 := { st with games_finished := 1 }
  if 0 < st1.games_started then
    let st2 := { st1 with complete_games := 1 }
    if st2.earned_runs = 0 then
      let st3 := { st2 with shutouts := 1 }
      if st3.hits_allowed = 0 then
        let st4 := { st3 with no_hitters := 1 }
        if st4.walks_issued = 0 then { st4 with perfect_games := 1 } else st4
      else st3
    else st2
  else st1

/-- Apply the finishing-pitcher credit to a team: the stats entry of the
last pitcher (`unwrap` modelled as failure) through
`entry(...).or_default()`. -/
def finishingCascadeTeam (t : Team) : Except String Team :=
  match t.pitchers.getLast? with
  | none => Except.error "team pitcher stack is empty"
  | some fp =>
    Except.ok { t with
      stats := alUpdate t.stats fp finishingPitcherCascade Stats.zero }

/-- The kind 11 (game over) branch of `State::push_inner`, src/state.rs
lines 421 to 448, given the `metadata.winner` field of the event: set
`game_finished`, mark the team whose id equals the winner, and credit
the finishing pitcher of each team. -/
def State.gameOverEvent (winner? : Option Uuid) (s : State) :
    Except String State :=
  let s0 := { s with game_finished := true }
  match winner? with
  | none => Except.error "missing winner data"
  | some winner =>
    let away1 := if s0.game.away.id = winner then
        { s0.game.away with won := true } else s0.game.away
    let home1 := if s0.game.home.id = winner then
        { s0.game.home with won := true } else s0.game.home
    match finishingCascadeTeam away1 with
    | Except.error e => Except.error e
    | Except.ok away2 =>
      match finishingCascadeTeam home1 with
      | Except.error e => Except.error e
      | Except.ok home2 =>
        Except.ok { s0 with game := { s0.game with away := away2, home := home2 } }

/-- Write `self.save_situation[if self.top_of_inning { 1 } else { 0 }]`:
slot 1 is the home team, which is on defense in the top of the inning. -/
def State.setDefenseSaveSituation (s : State) (v : Option SaveSituation) :
    State :=
  if s.top_of_inning then { s with save_situation := (s.save_situation.1, v) }
  else { s with save_situation := (v, s.save_situation.2) }

/-- The kind 3 (pitcher change) branch of `State::push_inner`, src/state.rs
lines 299 to 367, given the player tags and the pitcher name parsed from
the description (`none` when the description lacks
" is now pitching for the ", which fails the `checkdesc!`). Unknown
initial pitchers are tolerated only for an untouched first-inning
placeholder starter; then, when the named pitcher differs from the
current one, a starter with fewer than 15 outs loses pitcher-of-record
candidacy, the new pitcher is pushed, and the defense save situation is
recomputed. The `u16::try_from(on_base.len())` conversion fails only for
65536 or more runners, modelled at the point Rust would evaluate it. -/
def State.pitcherChange (s : State) (playerTags : List Uuid)
    (parsedName : Option String) : Except String State :=
  match parsedName with
  | none => Except.error "unexpected event description"
  | some name =>
    match playerTags with
    | [newPitcher] =>
      let known : Except String State :=
        if pitchersKnown s.game then Except.ok s
        else
          match s.defense.pitchers.getLast? with
          | none => Except.error "defense pitcher stack is empty"
          | some cur =>
            let sA := s.setDefense { s.defense with
              stats := alEnsure s.defense.stats cur Stats.zero }
            if sA.inning = 1 ∧ sA.defense.pitchers.length = 1 ∧
                alFindD sA.defense.stats cur Stats.zero =
                  { Stats.zero with games_started := 1 } then
              Except.ok (sA.setDefense
                (sA.defense.replacePlaceholderPitcher newPitcher name).2)
            else Except.error "initial pitchers are unknown"
      match known with
      | Except.error e => Except.error e
      | Except.ok s1 =>
        match s1.defense.pitchers.getLast? with
        | none => Except.error "defense pitcher stack is empty"
        | some cur =>
          if cur ≠ newPitcher then
            let s2 := s1.setDefense { s1.defense with
              stats := alEnsure s1.defense.stats cur Stats.zero }
            let s3 :=
              if s2.defense.pitchers.length = 1 ∧
                  (alFindD s2.defense.stats cur Stats.zero).outs_recorded < 15
              then s2.setDefense { s2.defense with pitcher_of_record := 0 }
              else s2
            let s4 := s3.setDefense { s3.defense with
              pitchers := s3.defense.pitchers ++ [newPitcher],
              player_names := alUpdate s3.defense.player_names newPitcher
                (fun _ => name) "" }
            let offenseRuns := s4.offense.runs
            let defenseRuns := s4.defense.runs
            if offenseRuns < defenseRuns then
              if defenseRuns ≤ offenseRuns + 1 then
                Except.ok (s4.setDefenseSaveSituation
                  (some SaveSituation.TyingRun))
              else if 2 ^ 16 ≤ s4.on_base.length then
                Except.error "on base count exceeds u16"
              else if defenseRuns ≤ offenseRuns + s4.on_base.length then
                Except.ok (s4.setDefenseSaveSituation
                  (some SaveSituation.TyingRun))
              else if defenseRuns - offenseRuns ≤ 3 then
                Except.ok (s4.setDefenseSaveSituation
                  (some SaveSituation.LeadThreeOrLess))
              else
                Except.ok (s4.setDefenseSaveSituation none)
            else
              Except.ok (s4.setDefenseSaveSituation none)
          else Except.ok s1
    | _ => Except.error "invalid player tag count"

/-! ### Event sequencing, src/feed.rs -/

/-- `GameEvent::next`, src/feed.rs lines 92 to 98. `sub_play + 1` in the
sibling comparison is a `usize` and exact; the returned `u16` components
wrap modulo 2 ^ 16 as in release Rust. -/
def eventNext (play subPlay siblingCount : Nat) : Nat × Nat :=
  if subPlay + 1 = siblingCount then ((play + 1) % 65536, 0)
  else (play, (subPlay + 1) % 65536)

/-- `GameEvent::expect`, src/feed.rs lines 79 to 90. The resynchronizing
comparison uses `play - 1` on a `u16`, which wraps modulo 2 ^ 16 in
release Rust, modelled as `(play + 65535) % 65536`. -/
def eventExpect (ty play subPlay siblingCount : Nat) (expected : Nat × Nat) :
    Except String (Nat × Nat) :=
  if expected ≠ (play, subPlay) then
    if ty = 2 ∧ expected = ((play + 65535) % 65536, subPlay) then
      Except.ok (eventNext play subPlay siblingCount)
    else Except.error "missing event"
  else Except.ok (eventNext play subPlay siblingCount)

/-! ### Baserunner normalization and reconciliation, src/state.rs -/

/-- One step of the reverse walk of `State::fix_minimum_base`: a runner
whose base does not exceed the one behind them is bumped to that base,
except that a trailing base of 0 bumps to 1 (first base exclusive). -/
def bumpBase (b next : Nat) : Nat :=
  if b ≤ next then (if next = 0 then 1 else next) else b

/-- `State::fix_minimum_base`, src/state.rs lines 1020 to 1038, written
as structural recursion from the front; the last runner is untouched and
each earlier runner sees the already-updated base behind them, exactly as
the mutable reverse iteration does. -/
def fixMinimumBase : List Runner → List Runner
  | [] => []
  | r :: rest =>
    match fixMinimumBase rest with
    | [] => [r]
    | r2 :: rest2 => { r with base := bumpBase r.base r2.base } :: r2 :: rest2

/-- Lexicographic order on (base, runner id) pairs, as `sort_unstable`
compares `(u16, Uuid)` tuples. -/
def pairLe (a b : Nat × Nat) : Bool :=
  a.1 < b.1 || (a.1 = b.1 && a.2 ≤ b.2)

def insertSorted (x : Nat × Nat) : List (Nat × Nat) → List (Nat × Nat)
  | [] => [x]
  | y :: rest => if pairLe x y then x :: y :: rest else y :: insertSorted x rest

/-- An ascending sort (insertion sort; `sort_unstable` agrees on the
ordering, and duplicates do not arise here). -/
def sortPairs (l : List (Nat × Nat)) : List (Nat × Nat) :=
  l.foldr insertSorted []

/-- The reconciliation loop of the terminal sibling-group block: for each
derived runner in order, find and remove their snapshot entry, require
the snapshot base not below the derived minimum, and adopt the snapshot
base. -/
def reconcileRunners (runners : List Runner) (known : List (Nat × Nat)) :
    Except String (List Runner × List (Nat × Nat)) :=
  match runners with
  | [] => Except.ok ([], known)
  | r :: rest =>
    match removeFirst known (fun e => e.2 == r.id) with
    | none => Except.error "baserunner missing from event"
    | some (entry, known2) =>
      if entry.1 < r.base then
        Except.error "baserunner on lower base than expected"
      else
        match reconcileRunners rest known2 with
        | Except.error e => Except.error e
        | Except.ok (rest2, known3) =>
          Except.ok ({ r with base := entry.1 } :: rest2, known3)

/-- The baserunner portion of the terminal sibling-group block of
`State::push_inner`, src/state.rs lines 670 to 706: with fewer than three
outs, every derived runner must still be short of home (base < 3), and
then the merged `base_runners`/`bases_occupied` snapshot, when present,
is zipped, sorted descending and reconciled; leftover snapshot runners
are fatal. Returns the updated on-base list. -/
def terminalRunnersCheck (halfInningOuts : Nat) (onBase : List Runner)
    (baseRunners : Option (List Uuid)) (basesOccupied : Option (List Nat)) :
    Except String (List Runner) :=
  if halfInningOuts < 3 then
    if ¬ (∀ r ∈ onBase, r.base < 3) then
      Except.error "baserunner should have scored"
    else
      match baseRunners, basesOccupied with
      | some ids, some bases =>
        let known := (sortPairs (bases.zip ids)).reverse
        match reconcileRunners onBase known with
        | Except.error e => Except.error e
        | Except.ok (onBase2, known2) =>
          if known2 = [] then Except.ok onBase2
          else Except.error "baserunners not known to us"
      | _, _ => Except.ok onBase
  else Except.ok onBase

/-! ### Concrete states used by the claim instances -/

/-- Top of the first inning, score level: the away offense has pitcher 30;
the home defense replaced pitcher 20 with 21 while runner 10, charged to
pitcher 20, stands on base. -/
def leadFlipState : State :=
  { game := { away := { id := 1, pitchers := [30] },
              home := { id := 2, pitchers := [20, 21] } },
    on_base := [⟨10, 20, 1⟩] }

/-- The state after `leadFlipState` credits the run of runner 10. -/
def leadFlipResult : State :=
  match leadFlipState.creditRun 10 with
  | Except.ok s => s
  | Except.error _ => leadFlipState

/-- A winning team whose finishing pitcher 61 entered in relief of the
pitcher of record 60 and has recorded exactly nine outs. -/
def nineOutTeam : Team :=
  { id := 3, won := true, pitchers := [60, 61], pitcher_of_record := 60,
    player_names := [(60, "Starter"), (61, "Closer")],
    stats := [(60, { games_started := 1, outs_recorded := 18 }),
              (61, { outs_recorded := 9 })] }

/-- The team after the save decision of `nineOutTeam` with no recorded
save situation. -/
def nineOutTeamSaved : Team :=
  match saveStep none nineOutTeam with
  | Except.ok t => t
  | Except.error _ => nineOutTeam

/-- The pitching line of the winning starter 50. -/
def shutoutAwayStats : Stats :=
  { games_started := 1, outs_recorded := 27, hits_allowed := 3,
    walks_issued := 2, batters_faced := 29, strikes_pitched := 50 }

/-- The pitching line of the losing starter 60. -/
def shutoutHomeStats : Stats :=
  { games_started := 1, outs_recorded := 24, hits_allowed := 5,
    earned_runs := 1, walks_issued := 1, batters_faced := 30,
    strikes_pitched := 40 }

/-- The away side of a game at its end: about to win behind starter 50
with 27 outs, three hits allowed, two walks issued and no earned runs. -/
def shutoutAway : Team :=
  { id := 1, pitchers := [50], pitcher_of_record := 50,
    player_names := [(50, "Winning Starter")],
    stats := [(50, shutoutAwayStats)],
    inning_runs := [(1, 1)] }

/-- The home side of `shutoutState`. -/
def shutoutHome : Team :=
  { id := 2, pitchers := [60],
    player_names := [(60, "Losing Starter")],
    stats := [(60, shutoutHomeStats)],
    inning_runs := [(1, 0)] }

/-- A game at its end, combining `shutoutAway` and `shutoutHome`. -/
def shutoutState : State :=
  { game := { away := shutoutAway, home := shutoutHome } }

/-- `shutoutState` after the kind 11 event naming team 1 the winner. -/
def shutoutMid : State :=
  match State.gameOverEvent (some 1) shutoutState with
  | Except.ok s => s
  | Except.error _ => shutoutState

/-- The committed game produced by `finish` from `shutoutMid`. -/
def shutoutGame : Game :=
  match shutoutMid.finish with
  | Except.ok g => g
  | Except.error _ => {}

/-- A defense whose starter 40 has recorded exactly 15 outs at the moment
pitcher 41 replaces them. -/
def fifteenOutHome : Team :=
  { id := 2, pitcher_of_record := 40, pitchers := [40],
    player_names := [(40, "Starter")],
    stats := [(40, { games_started := 1, outs_recorded := 15 })] }

/-- The game state around `fifteenOutHome`, with the away offense ready. -/
def fifteenOutState : State :=
  { game := { away := { id := 1, pitchers := [30] }, home := fifteenOutHome } }

/-- `fifteenOutState` after the pitcher change to 41. -/
def fifteenOutResult : State :=
  match fifteenOutState.pitcherChange [41] (some "Reliever") with
  | Except.ok s => s
  | Except.error _ => fifteenOutState

theorem roundCore_eq (quo rem denom : Nat) :
    roundCore quo rem denom = quo + (if denom ≤ 2 * rem then 1 else 0) := by
  unfold roundCore
  have hshift : denom >>> 1 = denom / 2 := by
    rw [Nat.shiftRight_eq_div_pow, pow_one]
  rw [hshift]
  rcases hc : compare rem (denom / 2) with _ | _ | _ <;>
    rcases he : denom % 2 == 0 with _ | _ <;>
    first
      | (rw [Nat.compare_eq_lt] at hc; rw [beq_eq_false_iff_ne] at he
         have : ¬ denom ≤ 2 * rem := by omega
         simp [this])
      | (rw [Nat.compare_eq_lt] at hc; rw [beq_iff_eq] at he
         have : ¬ denom ≤ 2 * rem := by omega
         simp [this])
      | (rw [Nat.compare_eq_eq] at hc; rw [beq_eq_false_iff_ne] at he
         have : ¬ denom ≤ 2 * rem := by omega
         simp [this])
      | (rw [Nat.compare_eq_eq] at hc; rw [beq_iff_eq] at he
         have : denom ≤ 2 * rem := by omega
         simp [this])
      | (rw [Nat.compare_eq_gt] at hc
         have : denom ≤ 2 * rem := by omega
         simp [this])

theorem fraction_round_eq (f : Fraction) (h : f.denom ≠ 0) :
    f.round = some (((f.numer.natAbs / f.denom +
      (if f.denom ≤ 2 * (f.numer.natAbs % f.denom) then 1 else 0) : Nat) : Int) *
      f.numer.sign) := by
  unfold Fraction.round
  rw [if_neg h, roundCore_eq]

/-- C2 counterexample: the code rounds 250/100 to 3 (and -250/100 to -3),
not to the even neighbour 2 demanded by ties-to-even. The unit test in
src/fraction.rs itself asserts these values. -/
theorem c2_round_counterexample :
    (Fraction.new 250 100).round = some 3 ∧
    (Fraction.new 250 100).round ≠ some 2 ∧
    (Fraction.new (-250) 100).round = some (-3) ∧
    (Fraction.new (-250) 100).round ≠ some (-2) := by
  refine ⟨by decide, by decide, by decide, by decide⟩

/-- C2 (amended): for every Fraction with non-zero denominator, `round()`
rounds half away from zero: the result is the truncated quotient,
incremented when twice the remainder reaches the denominator, with the
sign of the numerator reapplied. In particular 249/100 rounds to 2,
250/100 to 3, 251/100 to 3, -249/100 to -2, -250/100 to -3 and -251/100
to -3. -/
theorem c2_round_half_away_from_zero :
    (∀ f : Fraction, f.denom ≠ 0 →
      f.round = some (((f.numer.natAbs / f.denom +
        (if f.denom ≤ 2 * (f.numer.natAbs % f.denom) then 1 else 0) : Nat) : Int) *
        f.numer.sign)) ∧
    (Fraction.new 249 100).round = some 2 ∧
    (Fraction.new 250 100).round = some 3 ∧
    (Fraction.new 251 100).round = some 3 ∧
    (Fraction.new (-249) 100).round = some (-2) ∧
    (Fraction.new (-250) 100).round = some (-3) ∧
    (Fraction.new (-251) 100).round = some (-3) := by
  refine ⟨fraction_round_eq, by decide, by decide, by decide, by decide,
    by decide, by decide⟩

/-- C2 witness: the general half-away-from-zero formula evaluated at the
concrete fraction 5/2, which rounds to 3. -/
theorem c2_round_half_away_from_zero_witness :
    (Fraction.mk 5 2).round = some ((((Int.natAbs 5 / 2 +
      (if 2 ≤ 2 * (Int.natAbs 5 % 2) then 1 else 0) : Nat)) : Int) *
      Int.sign 5) :=
  c2_round_half_away_from_zero.1 ⟨5, 2⟩ (by decide)

theorem natAbs_tmod (a b : Int) : (a.tmod b).natAbs = a.natAbs % b.natAbs := by
  rcases a with m | m <;> rcases b with n | n <;>
    simp only [Int.tmod, Int.natAbs_neg, Int.natAbs_ofNat, Int.natAbs_negSucc] <;> rfl

theorem natDigitsRevAux_length_le :
    ∀ (fuel n p : Nat), n ≤ fuel → n < 10 ^ p → (natDigitsRevAux n fuel).length ≤ p := by
  intro fuel
  induction fuel with
  | zero =>
    intro n p h1 _
    have : n = 0 := by omega
    subst this
    simp [natDigitsRevAux]
  | succ fuel ih =>
    intro n p h1 h2
    by_cases hn : n = 0
    · subst hn
      simp [natDigitsRevAux]
    · rw [natDigitsRevAux, if_neg hn]
      simp only [List.length_cons]
      have hp : p ≠ 0 := by
        intro h
        subst h
        simp only [pow_zero] at h2
        omega
      obtain ⟨q, rfl⟩ : ∃ q, p = q + 1 := ⟨p - 1, by omega⟩
      have hdiv : n / 10 < 10 ^ q := by
        have hq : n < 10 ^ q * 10 := by
          rw [← pow_succ]
          exact h2
        omega
      have hfuel : n / 10 ≤ fuel := by omega
      have := ih (n / 10) q hfuel hdiv
      omega

theorem natRepr_length_le (n p : Nat) (h : n < 10 ^ p) (hp : 0 < p) :
    (natRepr n).length ≤ p := by
  unfold natRepr
  by_cases hn : n = 0
  · subst hn
    simpa using hp
  · rw [if_neg hn]
    show (natDigitsRevAux n n).reverse.length ≤ p
    rw [List.length_reverse]
    exact natDigitsRevAux_length_le n n p le_rfl h

theorem natRepr_ne_empty (n : Nat) : natRepr n ≠ "" := by
  unfold natRepr
  by_cases hn : n = 0
  · subst hn
    simp
  · rw [if_neg hn]
    intro hcon
    have hdata := congrArg String.data hcon
    obtain ⟨m, rfl⟩ : ∃ m, n = m + 1 := ⟨n - 1, by omega⟩
    rw [natDigitsRevAux, if_neg hn] at hdata
    simp at hdata

theorem intRepr_ne_empty (i : Int) : intRepr i ≠ "" := by
  unfold intRepr
  split
  · intro hcon
    have h1 : ("-" ++ natRepr i.natAbs).length = 0 := by
      rw [hcon]
      rfl
    rw [String.length_append] at h1
    have h2 : ("-" : String).length = 1 := rfl
    omega
  · exact natRepr_ne_empty i.natAbs

theorem padLeftZeros_length (s : String) (w : Nat) (h : s.length ≤ w) :
    (padLeftZeros s w).length = w := by
  show (List.replicate (w - s.length) '0' ++ s.data).length = w
  rw [List.length_append, List.length_replicate]
  have : s.data.length = s.length := rfl
  omega

theorem display_denom_ne_zero (f : Fraction) (alt : Bool) (p : Nat)
    (hd : f.denom ≠ 0) (hov : f.isOverflow = false) (hp : 0 < p) :
    f.display alt p =
      (if alt || displayTrunc f p != 0 then intRepr (displayTrunc f p) else "") ++
      ("." ++ padLeftZeros
        (natRepr ((scaledRound f p).tmod ((10 : Int) ^ p)).natAbs) p) := by
  unfold Fraction.display
  rw [hov]
  simp only [Bool.false_eq_true, if_false, if_neg hd, if_pos hp]

theorem tmod_pow_natAbs_lt (x : Int) (p : Nat) :
    (x.tmod ((10 : Int) ^ p)).natAbs < 10 ^ p := by
  rw [natAbs_tmod]
  have hpow : ((10 : Int) ^ p).natAbs = 10 ^ p := by
    rw [Int.natAbs_pow]
    rfl
  rw [hpow]
  exact Nat.mod_lt _ (pow_pos (by norm_num) p)

/-- C9: displaying a Pct with precision p prints the fraction with exactly
p digits after the decimal point; with p at least 3 the integer part is
omitted exactly when it is zero, while below 3 it is always printed
(keeping the leading zero); a zero denominator yields the NaN or infinity
sentinel, displayed as NaN, inf or -inf; and the three concrete instances
from the spec hold. -/
theorem c9_pct_display_format :
    (∀ (f : Fraction) (p : Nat), f.denom ≠ 0 → f.isOverflow = false →
      p ≤ 18 → 0 < p →
      ∃ ip fp : String,
        pctDisplay p f = ip ++ "." ++ fp ∧
        fp.length = p ∧
        (3 ≤ p → (ip = "" ↔ displayTrunc f p = 0)) ∧
        (p < 3 → ip = intRepr (displayTrunc f p) ∧ ip ≠ "")) ∧
    (∀ (n : Int) (p : Nat), pctDisplay p (Fraction.new n 0) =
      if n = 0 then "NaN" else if n < 0 then "-inf" else "inf") ∧
    pctDisplay 3 (Fraction.new 256 597) = ".429" ∧
    pctDisplay 3 (Fraction.new 0 0) = "NaN" ∧
    pctDisplay 3 (Fraction.new 1 0) = "inf" := by
  refine ⟨?_, ?_, by decide, by decide, by decide⟩
  · intro f p hd hov _ hp
    have hfplen :
        (padLeftZeros
          (natRepr ((scaledRound f p).tmod ((10 : Int) ^ p)).natAbs) p).length = p :=
      padLeftZeros_length _ _ (natRepr_length_le _ _ (tmod_pow_natAbs_lt _ _) hp)
    by_cases h3 : p < 3
    · refine ⟨intRepr (displayTrunc f p), _, ?_, hfplen, ?_, ?_⟩
      · unfold pctDisplay
        rw [if_pos h3, display_denom_ne_zero f true p hd hov hp,
          String.append_assoc]
        simp
      · intro hcon
        omega
      · intro _
        exact ⟨rfl, intRepr_ne_empty _⟩
    · by_cases hT : displayTrunc f p = 0
      · refine ⟨"", _, ?_, hfplen, ?_, ?_⟩
        · unfold pctDisplay
          rw [if_neg h3, display_denom_ne_zero f false p hd hov hp,
            String.append_assoc]
          simp [hT]
        · intro _
          simp [hT]
        · intro hcon
          omega
      · refine ⟨intRepr (displayTrunc f p), _, ?_, hfplen, ?_, ?_⟩
        · unfold pctDisplay
          rw [if_neg h3, display_denom_ne_zero f false p hd hov hp,
            String.append_assoc]
          simp [hT]
        · intro _
          constructor
          · intro hcon
            exact absurd hcon (intRepr_ne_empty _)
          · intro hcon
            exact absurd hcon hT
        · intro hcon
          omega
  · intro n p
    rcases lt_trichotomy n 0 with h | h | h
    · have hnew : Fraction.new n 0 = ⟨-1, 0⟩ := by
        unfold Fraction.new
        rw [if_pos rfl, if_neg (by omega), Int.sign_eq_neg_one_iff_neg.mpr h]
      rw [hnew, if_neg (by omega), if_pos h]
      unfold pctDisplay Fraction.display
      split <;> norm_num [Fraction.isOverflow, i64Max, u64Max]
    · subst h
      have hnew : Fraction.new 0 0 = ⟨0, 0⟩ := by decide
      rw [hnew, if_pos rfl]
      unfold pctDisplay Fraction.display
      split <;> norm_num [Fraction.isOverflow, i64Max, u64Max]
    · have hnew : Fraction.new n 0 = ⟨1, 0⟩ := by
        unfold Fraction.new
        rw [if_pos rfl, if_neg (by omega), Int.sign_eq_one_iff_pos.mpr h]
      rw [hnew, if_neg (by omega), if_neg (by omega)]
      unfold pctDisplay Fraction.display
      split <;> norm_num [Fraction.isOverflow, i64Max, u64Max]

/-- C9 witness: the format theorem instantiated at precision 3 and the
fraction 256/597, whose hypotheses hold by computation. -/
theorem c9_pct_display_format_witness :
    ∃ ip fp : String,
      pctDisplay 3 (Fraction.new 256 597) = ip ++ "." ++ fp ∧
      fp.length = 3 ∧
      (3 ≤ 3 → (ip = "" ↔ displayTrunc (Fraction.new 256 597) 3 = 0)) ∧
      (3 < 3 → ip = intRepr (displayTrunc (Fraction.new 256 597) 3) ∧ ip ≠ "") :=
  c9_pct_display_format.1 (Fraction.new 256 597) 3 (by decide) (by decide)
    (by decide) (by decide)

/-! ### Baserunner normalization: claim C8 -/

theorem le_bumpBase (b n : Nat) : b ≤ bumpBase b n := by
  unfold bumpBase
  split
  · split <;> omega
  · omega

theorem bumpBase_ge (b n : Nat) : n ≤ bumpBase b n ∧ (n = 0 → 1 ≤ bumpBase b n) := by
  unfold bumpBase
  split
  · split <;> omega
  · omega

theorem fixMinimumBase_forall₂ (l : List Runner) :
    List.Forall₂ (fun a b => b.id = a.id ∧ b.pitcher = a.pitcher ∧ a.base ≤ b.base)
      l (fixMinimumBase l) := by
  induction l with
  | nil => simp [fixMinimumBase]
  | cons r rest ih =>
    rw [fixMinimumBase]
    cases hfix : fixMinimumBase rest with
    | nil =>
      rw [hfix] at ih
      cases ih
      exact List.Forall₂.cons ⟨rfl, rfl, le_rfl⟩ (by simp)
    | cons r2 rest2 =>
      rw [hfix] at ih
      exact List.Forall₂.cons ⟨rfl, rfl, le_bumpBase r.base r2.base⟩ ih

theorem fixMinimumBase_chain (l : List Runner) :
    List.Chain' (fun a b => b.base ≤ a.base ∧ (b.base = 0 → 1 ≤ a.base))
      (fixMinimumBase l) := by
  induction l with
  | nil => simp [fixMinimumBase]
  | cons r rest ih =>
    rw [fixMinimumBase]
    cases hfix : fixMinimumBase rest with
    | nil => simp
    | cons r2 rest2 =>
      rw [hfix] at ih
      rw [List.chain'_cons]
      refine ⟨⟨(bumpBase_ge r.base r2.base).1, ?_⟩, ih⟩
      intro h0
      exact (bumpBase_ge r.base r2.base).2 h0

/-- C8: after fix_minimum_base, walking the runner list in insertion
order, every base is at least the next base and strictly above it when
the next base is 0 (first base exclusive, ties allowed on higher bases);
and the normalization preserves ids and charged pitchers and never
decreases a base. -/
theorem c8_fix_minimum_base_normalizes (l : List Runner) :
    List.Chain' (fun a b => b.base ≤ a.base ∧ (b.base = 0 → 1 ≤ a.base))
      (fixMinimumBase l) ∧
    List.Forall₂
      (fun a b => b.id = a.id ∧ b.pitcher = a.pitcher ∧ a.base ≤ b.base)
      l (fixMinimumBase l) :=
  ⟨fixMinimumBase_chain l, fixMinimumBase_forall₂ l⟩

/-! ### The terminal sibling-group baserunner check: claim C10 -/

/-- C10 counterexample: an event snapshot placing runner 7 on base 3
passes the terminal check (which ran before reconciliation) and leaves
the runner at minimum base 3 after a successful push. -/
theorem c10_base_three_counterexample :
    terminalRunnersCheck 0 [Runner.mk 7 5 0] (some [7]) (some [3]) =
      Except.ok [Runner.mk 7 5 3] := rfl

/-- C10 (amended): on a terminal sibling event with fewer than three
outs, push fails unless every derived runner is below base 3 at the
check, which runs before snapshot reconciliation; when no snapshot is
attached the list is unchanged (so every runner also ends below base 3),
but a snapshot may still raise a base, including to 3. -/
theorem c10_terminal_check (outs : Nat) (l lOut : List Runner)
    (br : Option (List Uuid)) (bo : Option (List Nat))
    (houts : outs < 3)
    (hok : terminalRunnersCheck outs l br bo = Except.ok lOut) :
    (∀ r ∈ l, r.base < 3) ∧ ((br = none ∨ bo = none) → lOut = l) := by
  unfold terminalRunnersCheck at hok
  rw [if_pos houts] at hok
  by_cases hall : ∀ r ∈ l, r.base < 3
  · rw [if_neg (not_not_intro hall)] at hok
    refine ⟨hall, ?_⟩
    intro hnone
    rcases br with _ | ids
    · rcases bo with _ | bases <;> simpa using hok.symm
    · rcases bo with _ | bases
      · simpa using hok.symm
      · rcases hnone with h | h <;> exact absurd h (by simp)
  · rw [if_pos hall] at hok
    exact absurd hok (by simp)

theorem c10_terminal_check_witness :
    (∀ r ∈ [Runner.mk 7 5 1], r.base < 3) ∧
    (((none : Option (List Uuid)) = none ∨ (none : Option (List Nat)) = none) →
      [Runner.mk 7 5 1] = [Runner.mk 7 5 1]) :=
  c10_terminal_check 0 [Runner.mk 7 5 1] [Runner.mk 7 5 1] none none
    (by decide) rfl

/-! ### Event sequencing: claim C7 -/

/-- C7 counterexample: with the expected pair at the u16 boundary
(65535, 0), a kind 2 event carrying play 0 resynchronizes (release-mode
wrap-around of `play - 1`), although 0 is not expected.play + 1. -/
theorem c7_wraparound_counterexample :
    eventExpect 2 0 0 1 (65535, 0) = Except.ok (1, 0) ∧
      (0 : Nat) ≠ 65535 + 1 := ⟨rfl, by decide⟩

/-- C7 (amended): for u16-ranged inputs, the sequencing check accepts an
event exactly when its (play, sub_play) equals the expected pair, or the
event is kind 2 with play congruent to expected.play + 1 modulo 2 ^ 16
and sub_play equal to expected.sub_play; on acceptance the next expected
pair is (play, sub_play + 1 mod 2 ^ 16) unless sub_play + 1 equals the
sibling count, in which case it is (play + 1 mod 2 ^ 16, 0). -/
theorem c7_event_sequencing (ty play subPlay siblingCount e1 e2 : Nat)
    (hp : play < 65536) (he : e1 < 65536) :
    ((∃ r, eventExpect ty play subPlay siblingCount (e1, e2) = Except.ok r) ↔
      ((e1, e2) = (play, subPlay) ∨
        (ty = 2 ∧ play = (e1 + 1) % 65536 ∧ e2 = subPlay))) ∧
    (∀ r, eventExpect ty play subPlay siblingCount (e1, e2) = Except.ok r →
      r = if subPlay + 1 = siblingCount then ((play + 1) % 65536, 0)
          else (play, (subPlay + 1) % 65536)) := by
  constructor
  · unfold eventExpect
    by_cases hne : (e1, e2) ≠ (play, subPlay)
    · rw [if_pos hne]
      by_cases hc : ty = 2 ∧ (e1, e2) = ((play + 65535) % 65536, subPlay)
      · rw [if_pos hc]
        rw [Prod.mk.injEq] at hc
        constructor
        · intro _
          right
          exact ⟨hc.1, by omega, hc.2.2⟩
        · intro _
          exact ⟨_, rfl⟩
      · rw [if_neg hc]
        constructor
        · intro ⟨r, hr⟩
          exact absurd hr (by simp)
        · intro h
          rcases h with h | h
          · exact absurd h hne
          · exact absurd ⟨h.1, by rw [Prod.mk.injEq]; exact ⟨by omega, h.2.2⟩⟩ hc
    · rw [if_neg hne]
      rw [not_ne_iff] at hne
      exact ⟨fun _ => Or.inl hne, fun _ => ⟨_, rfl⟩⟩
  · intro r hr
    unfold eventExpect at hr
    split at hr
    · split at hr
      · cases hr
        rfl
      · exact absurd hr (by simp)
    · cases hr
      rfl

theorem c7_event_sequencing_witness :
    ((∃ r, eventExpect 2 5 0 1 (4, 0) = Except.ok r) ↔
      (((4 : Nat), (0 : Nat)) = (5, 0) ∨
        ((2 : Nat) = 2 ∧ (5 : Nat) = (4 + 1) % 65536 ∧ (0 : Nat) = 0))) ∧
    (∀ r, eventExpect 2 5 0 1 (4, 0) = Except.ok r →
      r = if (0 : Nat) + 1 = 1 then (((5 : Nat) + 1) % 65536, 0)
          else (5, (0 + 1) % 65536)) :=
  c7_event_sequencing 2 5 0 1 4 0 (by decide) (by decide)

/-! ### Pitchers of record on a lead change: claim C1 -/

/-- C1 counterexample: crediting the run of runner 10, charged to the
departed pitcher 20, flips a level game to an away lead; the defense
pitcher_of_record becomes the charged pitcher 20, not the current
pitcher 21 at the top of the home stack. -/
theorem c1_defense_por_counterexample :
    (leadFlipState.creditRun 10).map
      (fun s => (s.game.home.pitcher_of_record, s.game.home.pitchers.getLast?,
        s.game.away.pitcher_of_record)) =
      Except.ok ((20 : Uuid), some (21 : Uuid), (30 : Uuid)) ∧
    (20 : Uuid) ≠ 21 := ⟨rfl, by decide⟩

/-- C1 (amended): whenever credit_run scores a runner and the run
comparison changes from its value at the previous sibling-group boundary
to a non-equal value, the offense pitcher_of_record becomes the offense
current pitcher (last of its stack), and the defense pitcher_of_record
becomes the pitcher charged with the run, the one stored in the scoring
Runner (the defense current pitcher only when the runner reached base
against them). -/
theorem c1_credit_run_pitchers_of_record (s sFinal : State) (rid : Uuid)
    (r : Runner) (rest : List Runner) (op : Uuid)
    (hfind : removeFirst s.on_base (fun x => x.id == rid) = some (r, rest))
    (hop : s.offense.pitchers.getLast? = some op)
    (hok : s.creditRun rid = Except.ok sFinal)
    (hflip : sFinal.runsCmp ≠ s.last_runs_cmp ∧ sFinal.runsCmp ≠ Ordering.eq) :
    sFinal.offense.pitcher_of_record = op ∧
    sFinal.defense.pitcher_of_record = r.pitcher := by
  rcases hrbi : s.rbi_credit with _ | rc <;>
    rcases htop : s.top_of_inning with _ | _
  all_goals
    simp only [State.creditRun, hfind, State.offense, State.defense,
      State.setOffense, State.setDefense, State.recordRunnerEvent,
      State.runsCmp, Team.runs, htop, hrbi] at hok hop ⊢
  all_goals
    simp only [Bool.false_eq_true, if_false, if_true] at hok hop ⊢
  all_goals rw [hop] at hok
  all_goals
    (split at hok
     · rename_i hcond
       cases hok
       exact ⟨by simp, by simp⟩
     · rename_i hcond
       cases hok
       exact absurd hflip hcond)

theorem c1_credit_run_pitchers_of_record_witness :
    leadFlipResult.offense.pitcher_of_record = 30 ∧
    leadFlipResult.defense.pitcher_of_record = (Runner.mk 10 20 1).pitcher :=
  c1_credit_run_pitchers_of_record leadFlipState leadFlipResult 10
    (Runner.mk 10 20 1) [] 30 rfl rfl rfl (by decide)

/-! ### Association list lemmas -/

theorem alFind?_alUpdate_self {β : Type} (m : List (Nat × β)) (k : Nat)
    (f : β → β) (d : β) :
    alFind? (alUpdate m k f d) k = some (f (alFindD m k d)) := by
  induction m with
  | nil => simp [alUpdate, alFind?, alFindD, List.find?]
  | cons e rest ih =>
    by_cases h : e.1 = k
    · simp [alUpdate, h, alFind?, alFindD, List.find?]
    · have hbeq : (e.1 == k) = false := by
        simp [h]
      simp only [alUpdate, if_neg h, alFind?, List.find?, hbeq] at ih ⊢
      simp only [alFindD, alFind?, List.find?, hbeq] at ih ⊢
      exact ih

theorem alFindD_alUpdate_self {β : Type} (m : List (Nat × β)) (k : Nat)
    (f : β → β) (d : β) :
    alFindD (alUpdate m k f d) k d = f (alFindD m k d) := by
  unfold alFindD
  rw [alFind?_alUpdate_self]
  rfl

theorem alFindD_alEnsure {β : Type} (m : List (Nat × β)) (k : Nat) (d : β) :
    alFindD (alEnsure m k d) k d = alFindD m k d := by
  unfold alEnsure
  rw [alFindD_alUpdate_self]
  rfl

/-! ### The save decision at finish: claim C3 -/

/-- C3: at finish (whose per-team pass `teamFinish` invokes `saveStep`),
the finishing pitcher of the winning team is credited a save, with
`saving_pitcher` set and `saves` 1, exactly when they are not the pitcher
of record and their recorded outs meet the recorded save situation: at
least 1 for TyingRun, at least 3 for LeadThreeOrLess, and at least 9 when
no situation was recorded. -/
theorem c3_finishing_pitcher_save (save : Option SaveSituation) (t tOut : Team)
    (fp : Uuid)
    (hwon : t.won = true)
    (hfp : t.pitchers.getLast? = some fp)
    (hsp : t.saving_pitcher = none)
    (hok : saveStep save t = Except.ok tOut) :
    ((tOut.saving_pitcher = some fp ∧
      (alFindD tOut.stats fp Stats.zero).saves = 1) ↔
      (t.pitcher_of_record ≠ fp ∧
        match save with
        | some SaveSituation.TyingRun =>
          1 ≤ (alFindD t.stats fp Stats.zero).outs_recorded
        | some SaveSituation.LeadThreeOrLess =>
          3 ≤ (alFindD t.stats fp Stats.zero).outs_recorded
        | none => 9 ≤ (alFindD t.stats fp Stats.zero).outs_recorded)) := by
  by_cases hpor : t.pitcher_of_record ≠ fp
  · unfold saveStep at hok
    simp only [hwon, hfp, if_true, if_pos hpor, alFindD_alEnsure] at hok
    rcases save with _ | sv
    · by_cases hcmp : 9 ≤ (alFindD t.stats fp Stats.zero).outs_recorded
      · rw [if_pos (decide_eq_true hcmp)] at hok
        cases hok
        simp only [alFindD_alUpdate_self]
        simp [hpor, hcmp]
      · rw [if_neg (by simp [hcmp])] at hok
        cases hok
        simp [hsp, hcmp]
    · cases sv
      · by_cases hcmp : 1 ≤ (alFindD t.stats fp Stats.zero).outs_recorded
        · rw [if_pos (decide_eq_true hcmp)] at hok
          cases hok
          simp only [alFindD_alUpdate_self]
          simp [hpor, hcmp]
        · rw [if_neg (by simp [hcmp])] at hok
          cases hok
          simp [hsp, hcmp]
      · by_cases hcmp : 3 ≤ (alFindD t.stats fp Stats.zero).outs_recorded
        · rw [if_pos (decide_eq_true hcmp)] at hok
          cases hok
          simp only [alFindD_alUpdate_self]
          simp [hpor, hcmp]
        · rw [if_neg (by simp [hcmp])] at hok
          cases hok
          simp [hsp, hcmp]
  · have hpor2 : t.pitcher_of_record = fp := not_not.mp hpor
    unfold saveStep at hok
    simp only [hwon, hfp, if_true, if_neg hpor] at hok
    cases hok
    simp [hsp, hpor2]

/-- C3 witness: relief pitcher 61 with exactly nine recorded outs and no
recorded save situation, behind pitcher of record 60, is granted the
save. -/
theorem c3_finishing_pitcher_save_witness :
    ((nineOutTeamSaved.saving_pitcher = some 61 ∧
      (alFindD nineOutTeamSaved.stats 61 Stats.zero).saves = 1) ↔
      (nineOutTeam.pitcher_of_record ≠ 61 ∧
        9 ≤ (alFindD nineOutTeam.stats 61 Stats.zero).outs_recorded)) :=
  c3_finishing_pitcher_save none nineOutTeam nineOutTeamSaved 61 rfl rfl rfl rfl

/-! ### State accessor lemmas -/

@[simp]
theorem State.defense_setDefense (s : State) (t : Team) :
    (s.setDefense t).defense = t := by
  cases htop : s.top_of_inning <;>
    simp [State.setDefense, State.defense, htop]

@[simp]
theorem State.offense_setDefense (s : State) (t : Team) :
    (s.setDefense t).offense = s.offense := by
  cases htop : s.top_of_inning <;>
    simp [State.setDefense, State.offense, htop]

@[simp]
theorem State.offense_setOffense (s : State) (t : Team) :
    (s.setOffense t).offense = t := by
  cases htop : s.top_of_inning <;>
    simp [State.setOffense, State.offense, htop]

@[simp]
theorem State.defense_setOffense (s : State) (t : Team) :
    (s.setOffense t).defense = s.defense := by
  cases htop : s.top_of_inning <;>
    simp [State.setOffense, State.defense, htop]

@[simp]
theorem State.defense_setDefenseSaveSituation (s : State)
    (v : Option SaveSituation) :
    (s.setDefenseSaveSituation v).defense = s.defense := by
  cases htop : s.top_of_inning <;>
    simp [State.setDefenseSaveSituation, State.defense, htop]

/-! ### Starter eligibility on a pitcher change: claim C6 -/

/-- C6: on a kind 3 pitcher change naming a pitcher different from the
defense current pitcher, the defense pitcher_of_record afterwards is
cleared to the placeholder exactly when the outgoing pitcher was alone
in the stack and had recorded fewer than 15 outs, and is untouched
otherwise; in particular a starter with exactly 15 outs keeps the
candidacy. -/
theorem c6_pitcher_change_por (s sOut : State) (p old : Uuid) (name : String)
    (hknown : pitchersKnown s.game = true)
    (hold : s.defense.pitchers.getLast? = some old)
    (hne : old ≠ p)
    (hok : s.pitcherChange [p] (some name) = Except.ok sOut) :
    sOut.defense.pitcher_of_record =
      (if s.defense.pitchers.length = 1 ∧
          (alFindD s.defense.stats old Stats.zero).outs_recorded < 15
       then 0 else s.defense.pitcher_of_record) := by
  unfold State.pitcherChange at hok
  simp only [hknown, if_true, hold, if_pos hne, State.defense_setDefense,
    State.offense_setDefense, alFindD_alEnsure] at hok
  by_cases hcond : s.defense.pitchers.length = 1 ∧
      (alFindD s.defense.stats old Stats.zero).outs_recorded < 15
  · rw [if_pos hcond]
    simp only [if_pos hcond] at hok
    repeat' split at hok
    all_goals
      first
        | (cases hok; simp)
        | exact absurd hok (by simp)
  · rw [if_neg hcond]
    simp only [if_neg hcond] at hok
    repeat' split at hok
    all_goals
      first
        | (cases hok; simp)
        | exact absurd hok (by simp)

/-- C6 witness: the theorem at `fifteenOutState`, where the lone starter
40 has exactly 15 outs; the pitcher of record stays 40. -/
theorem c6_pitcher_change_por_witness :
    fifteenOutResult.defense.pitcher_of_record =
      (if fifteenOutState.defense.pitchers.length = 1 ∧
          (alFindD fifteenOutState.defense.stats 40 Stats.zero).outs_recorded < 15
       then 0 else fifteenOutState.defense.pitcher_of_record) :=
  c6_pitcher_change_por fifteenOutState fifteenOutResult 41 40 "Reliever"
    rfl rfl (by decide) rfl

/-! ### Finish post-conditions: claims C4 and C5 -/

theorem isPitching_set_games_batted (st : Stats) (x : Nat) :
    ({ st with games_batted := x } : Stats).isPitching = st.isPitching := rfl

theorem isBatting_set_games_pitched (st : Stats) (x : Nat) :
    ({ st with games_pitched := x } : Stats).isBatting = st.isBatting := rfl

theorem isPitching_gamesIncrement (st : Stats) :
    (gamesIncrement st).isPitching = st.isPitching := by
  unfold gamesIncrement gamesIncrementPitch gamesIncrementBat
  split <;> split <;> rfl

theorem isBatting_gamesIncrement (st : Stats) :
    (gamesIncrement st).isBatting = st.isBatting := by
  unfold gamesIncrement gamesIncrementPitch gamesIncrementBat
  split <;> split <;> rfl

theorem outs_gamesIncrement (st : Stats) :
    (gamesIncrement st).outs_recorded = st.outs_recorded := by
  unfold gamesIncrement gamesIncrementPitch gamesIncrementBat
  split <;> split <;> rfl

theorem gamesIncrement_counts (st : Stats) :
    (st.isPitching = true → 1 ≤ (gamesIncrement st).games_pitched) ∧
    (st.isBatting = true → 1 ≤ (gamesIncrement st).games_batted) := by
  unfold gamesIncrement gamesIncrementPitch gamesIncrementBat
  by_cases hb : st.isBatting = true <;>
    by_cases hp : st.isPitching = true <;>
    simp [hb, hp, isPitching_set_games_batted, isBatting_set_games_pitched]

theorem sumOuts_map_gamesIncrement (m : List (Uuid × Stats)) :
    sumOuts (m.map (fun e => (e.1, gamesIncrement e.2))) = sumOuts m := by
  induction m with
  | nil => rfl
  | cons e rest ih =>
    unfold sumOuts at ih ⊢
    simp only [List.map_cons, List.sum_cons, List.map_map] at ih ⊢
    rw [outs_gamesIncrement, ih]

theorem alContains_map_snd {β : Type} (m : List (Nat × β)) (f : β → β) (k : Nat) :
    alContains (m.map (fun e => (e.1, f e.2))) k = alContains m k := by
  unfold alContains
  induction m with
  | nil => rfl
  | cons e rest ih => simp [List.any_cons, ih]

theorem saveStep_preserves (save : Option SaveSituation) (x y : Team)
    (hok : saveStep save x = Except.ok y) :
    y.won = x.won ∧ y.pitchers = x.pitchers ∧
    y.player_names = x.player_names := by
  unfold saveStep at hok
  simp only [] at hok
  repeat' split at hok
  all_goals
    first
      | (cases hok; exact ⟨rfl, rfl, rfl⟩)
      | exact absurd hok (by simp)

theorem teamFinish_props (save : Option SaveSituation) (t tOut : Team)
    (hok : teamFinish save t = Except.ok tOut) :
    tOut.won = t.won ∧
    sumOuts tOut.stats % 3 = 0 ∧
    (∀ q ∈ tOut.pitchers, q ≠ 0) ∧
    alContains tOut.stats 0 = false ∧
    alContains tOut.player_names 0 = false ∧
    (∀ e ∈ tOut.stats,
      (e.2.isPitching = true → 1 ≤ e.2.games_pitched) ∧
      (e.2.isBatting = true → 1 ≤ e.2.games_batted)) := by
  unfold teamFinish at hok
  simp only [] at hok
  split at hok
  · exact absurd hok (by simp)
  · rename_i hPitchers
    split at hok
    · exact absurd hok (by simp)
    · split at hok
      · exact absurd hok (by simp)
      · split at hok
        · exact absurd hok (by simp)
        · rename_i t2 hsave
          split at hok
          · exact absurd hok (by simp)
          · rename_i hmod
            split at hok
            · exact absurd hok (by simp)
            · rename_i hstats0
              split at hok
              · exact absurd hok (by simp)
              · rename_i hnames0
                cases hok
                obtain ⟨hwon, hpitch, hnames⟩ := saveStep_preserves _ _ _ hsave
                refine ⟨?_, ?_, ?_, ?_, ?_, ?_⟩
                · rw [hwon]
                · rw [sumOuts_map_gamesIncrement]
                  omega
                · intro q hq
                  rw [hpitch] at hq
                  exact not_not.mp hPitchers q (by simpa using hq)
                · rw [alContains_map_snd]
                  simpa using hstats0
                · simpa using hnames0
                · intro e he
                  rw [List.mem_map] at he
                  obtain ⟨e0, _, rfl⟩ := he
                  refine ⟨?_, ?_⟩
                  · intro hp
                    rw [isPitching_gamesIncrement] at hp
                    exact (gamesIncrement_counts e0.2).1 hp
                  · intro hb
                    rw [isBatting_gamesIncrement] at hb
                    exact (gamesIncrement_counts e0.2).2 hb

/-- C5: whenever finish returns a committed Game, all of the claimed
post-conditions hold: the game had finished, exactly one team won, each
team has whole innings of recorded outs, no placeholder id survives in
pitcher stacks, stats maps or name maps, and every record with pitching
or batting activity carries the corresponding game count. -/
theorem c5_finish_postconditions (s : State) (g : Game)
    (hok : s.finish = Except.ok g) :
    s.game_finished = true ∧
    g.away.won ≠ g.home.won ∧
    (sumOuts g.away.stats % 3 = 0 ∧ sumOuts g.home.stats % 3 = 0) ∧
    ((∀ q ∈ g.away.pitchers, q ≠ 0) ∧ (∀ q ∈ g.home.pitchers, q ≠ 0)) ∧
    (alContains g.away.stats 0 = false ∧ alContains g.home.stats 0 = false) ∧
    (alContains g.away.player_names 0 = false ∧
      alContains g.home.player_names 0 = false) ∧
    (∀ e ∈ g.away.stats ++ g.home.stats,
      (e.2.isPitching = true → 1 ≤ e.2.games_pitched) ∧
      (e.2.isBatting = true → 1 ≤ e.2.games_batted)) := by
  unfold State.finish at hok
  split at hok
  · exact absurd hok (by simp)
  · rename_i hgf
    split at hok
    · exact absurd hok (by simp)
    · split at hok
      · exact absurd hok (by simp)
      · rename_i hxor
        split at hok
        · exact absurd hok (by simp)
        · rename_i awayDone hAway
          split at hok
          · exact absurd hok (by simp)
          · rename_i homeDone hHome
            cases hok
            obtain ⟨pa1, pa2, pa3, pa4, pa5, pa6⟩ :=
              teamFinish_props _ _ _ hAway
            obtain ⟨ph1, ph2, ph3, ph4, ph5, ph6⟩ :=
              teamFinish_props _ _ _ hHome
            refine ⟨not_not.mp hgf, ?_, ⟨pa2, ph2⟩, ⟨pa3, ph3⟩, ⟨pa4, ph4⟩,
              ⟨pa5, ph5⟩, ?_⟩
            · have hx := not_not.mp hxor
              show awayDone.won ≠ homeDone.won
              rw [pa1, ph1]
              cases ha : s.game.away.won <;> cases hb : s.game.home.won <;>
                simp_all
            · intro e he
              rcases List.mem_append.mp he with h | h
              · exact pa6 e h
              · exact ph6 e h

/-- C5 witness: the theorem applied to the committed shutout game. -/
theorem c5_finish_postconditions_witness :
    shutoutMid.game_finished = true ∧
    shutoutGame.away.won ≠ shutoutGame.home.won ∧
    (sumOuts shutoutGame.away.stats % 3 = 0 ∧
      sumOuts shutoutGame.home.stats % 3 = 0) ∧
    ((∀ q ∈ shutoutGame.away.pitchers, q ≠ 0) ∧
      (∀ q ∈ shutoutGame.home.pitchers, q ≠ 0)) ∧
    (alContains shutoutGame.away.stats 0 = false ∧
      alContains shutoutGame.home.stats 0 = false) ∧
    (alContains shutoutGame.away.player_names 0 = false ∧
      alContains shutoutGame.home.player_names 0 = false) ∧
    (∀ e ∈ shutoutGame.away.stats ++ shutoutGame.home.stats,
      (e.2.isPitching = true → 1 ≤ e.2.games_pitched) ∧
      (e.2.isBatting = true → 1 ≤ e.2.games_batted)) :=
  c5_finish_postconditions shutoutMid shutoutGame rfl

/-- C4 counterexample: a kind 11 event without winner metadata fails
outright instead of falling back to the first team tag (the branch never
reads the team tags). -/
theorem c4_missing_winner_counterexample :
    State.gameOverEvent none shutoutState =
      Except.error "missing winner data" := rfl

theorem finishingCascadeTeam_ok (x y : Team)
    (hok : finishingCascadeTeam x = Except.ok y) :
    ∃ fp, x.pitchers.getLast? = some fp ∧
      y = { x with
        stats := alUpdate x.stats fp finishingPitcherCascade Stats.zero } := by
  unfold finishingCascadeTeam at hok
  split at hok
  · exact absurd hok (by simp)
  · rename_i fp hlast
    cases hok
    exact ⟨fp, hlast, rfl⟩

theorem won_mark_team (t : Team) (w : Uuid) :
    (if t.id = w then { t with won := true } else t).won =
      (if t.id = w then true else t.won) := by
  split <;> rfl

theorem pitchers_mark_team (t : Team) (w : Uuid) :
    (if t.id = w then { t with won := true } else t).pitchers = t.pitchers := by
  split <;> rfl

theorem stats_mark_team (t : Team) (w : Uuid) :
    (if t.id = w then { t with won := true } else t).stats = t.stats := by
  split <;> rfl

/-- C4 (amended): a kind 11 event sets game_finished, marks the team
whose id equals metadata.winner (required; the event fails without it)
as won, and credits each finishing pitcher through the nested cascade:
games_finished always, complete game for a starter, then shutout,
no-hitter and perfect game as earned runs, hits and walks are zero;
consequently the shutout scenario commits with complete_games 1,
shutouts 1, no_hitters 0, perfect_games 0, games_finished 1 and wins 1
for the winning starter. -/
theorem c4_game_over_event :
    (∀ (w : Uuid) (s sOut : State),
      State.gameOverEvent (some w) s = Except.ok sOut →
      sOut.game_finished = true ∧
      (s.game.away.id = w → sOut.game.away.won = true) ∧
      (s.game.home.id = w → sOut.game.home.won = true) ∧
      (∀ fp, s.game.away.pitchers.getLast? = some fp →
        alFindD sOut.game.away.stats fp Stats.zero =
          finishingPitcherCascade (alFindD s.game.away.stats fp Stats.zero)) ∧
      (∀ fp, s.game.home.pitchers.getLast? = some fp →
        alFindD sOut.game.home.stats fp Stats.zero =
          finishingPitcherCascade (alFindD s.game.home.stats fp Stats.zero))) ∧
    (∀ st : Stats,
      (finishingPitcherCascade st).games_finished = 1 ∧
      (0 < st.games_started → (finishingPitcherCascade st).complete_games = 1) ∧
      (0 < st.games_started ∧ st.earned_runs = 0 →
        (finishingPitcherCascade st).shutouts = 1) ∧
      (0 < st.games_started ∧ st.earned_runs = 0 ∧ st.hits_allowed = 0 →
        (finishingPitcherCascade st).no_hitters = 1) ∧
      (0 < st.games_started ∧ st.earned_runs = 0 ∧ st.hits_allowed = 0 ∧
        st.walks_issued = 0 →
        (finishingPitcherCascade st).perfect_games = 1)) ∧
    (State.gameOverEvent (some 1) shutoutState = Except.ok shutoutMid ∧
      shutoutMid.finish = Except.ok shutoutGame ∧
      (alFindD shutoutGame.away.stats 50 Stats.zero).complete_games = 1 ∧
      (alFindD shutoutGame.away.stats 50 Stats.zero).shutouts = 1 ∧
      (alFindD shutoutGame.away.stats 50 Stats.zero).no_hitters = 0 ∧
      (alFindD shutoutGame.away.stats 50 Stats.zero).perfect_games = 0 ∧
      (alFindD shutoutGame.away.stats 50 Stats.zero).games_finished = 1 ∧
      (alFindD shutoutGame.away.stats 50 Stats.zero).wins = 1) := by
  refine ⟨?_, ?_, rfl, rfl, by decide, by decide, by decide, by decide,
    by decide, by decide⟩
  · intro w s sOut hok
    unfold State.gameOverEvent at hok
    simp only [] at hok
    split at hok
    · exact absurd hok (by simp)
    · rename_i away2 hA
      split at hok
      · exact absurd hok (by simp)
      · rename_i home2 hH
        cases hok
        obtain ⟨fpA, hlastA, rfl⟩ := finishingCascadeTeam_ok _ _ hA
        obtain ⟨fpH, hlastH, rfl⟩ := finishingCascadeTeam_ok _ _ hH
        rw [pitchers_mark_team] at hlastA hlastH
        refine ⟨rfl, ?_, ?_, ?_, ?_⟩
        · intro h
          simp only [won_mark_team]
          rw [if_pos h]
        · intro h
          simp only [won_mark_team]
          rw [if_pos h]
        · intro fp hfp
          rw [hfp] at hlastA
          injection hlastA with hfpEq
          subst hfpEq
          simp only [alFindD_alUpdate_self, stats_mark_team]
        · intro fp hfp
          rw [hfp] at hlastH
          injection hlastH with hfpEq
          subst hfpEq
          simp only [alFindD_alUpdate_self, stats_mark_team]
  · intro st
    unfold finishingPitcherCascade
    simp only []
    by_cases h1 : 0 < st.games_started
    · by_cases h2 : st.earned_runs = 0
      · by_cases h3 : st.hits_allowed = 0
        · by_cases h4 : st.walks_issued = 0
          · simp [h1, h2, h3, h4]
          · simp [h1, h2, h3, h4]
        · simp [h1, h2, h3]
      · simp [h1, h2]
    · simp [h1]

/-- C4 witness: the general part of the theorem at the shutout scenario. -/
theorem c4_game_over_event_witness :
    shutoutMid.game_finished = true ∧
    (shutoutState.game.away.id = 1 → shutoutMid.game.away.won = true) ∧
    (shutoutState.game.home.id = 1 → shutoutMid.game.home.won = true) ∧
    (∀ fp, shutoutState.game.away.pitchers.getLast? = some fp →
      alFindD shutoutMid.game.away.stats fp Stats.zero =
        finishingPitcherCascade
          (alFindD shutoutState.game.away.stats fp Stats.zero)) ∧
    (∀ fp, shutoutState.game.home.pitchers.getLast? = some fp →
      alFindD shutoutMid.game.home.stats fp Stats.zero =
        finishingPitcherCascade
          (alFindD shutoutState.game.home.stats fp Stats.zero)) :=
  c4_game_over_event.1 1 shutoutState shutoutMid rfl

end Bricks
